import Mathlib

/-!
Shallow embedding of the prediction-market program
(`src/programs/prediction-market/src/lib.rs`).

Modelling conventions:
- `Pubkey` values (identities) are modelled as `Nat`; the program only
  compares them for equality.
- `u64` fields are modelled as `Nat`; where the program performs fixed-width
  arithmetic the width is made explicit (`u64Bound`, `u128Bound`).
  Checked operations (`checked_add`, `checked_mul`, `checked_div`) return
  `Option`; an `unwrap` of `none` aborts the whole instruction, modelled as
  the `ProgErr.arithAbort` error.  The plain `u64` addition at line 152
  (`total_yes_bets + total_no_bets`) is likewise modelled as aborting on
  overflow, matching the overflow-checked build profile Anchor programs use.
- `i64` timestamps are modelled as `Int`.
- Each instruction is a total function from its inputs (account states,
  clock, caller) to `Except ProgErr` of the updated account states.  An
  `error` result means the transaction aborts and no state change or token
  transfer persists (Solana instruction atomicity).
- The SPL token transfers are external collaborators (spec section 6); the
  transferred amount is returned alongside the updated accounts, and a call
  that errors transfers nothing.
-/

/-- Width bound of the `u64` type: a value `x` is a valid `u64` iff `x < u64Bound`. -/
def u64Bound : Nat := 2 ^ 64

/-- Width bound of the `u128` type used for the payout intermediate product. -/
def u128Bound : Nat := 2 ^ 128

/-- Rust `u64::checked_add`: `none` exactly when the sum overflows 64 bits. -/
def checkedAddU64 (a b : Nat) : Option Nat :=
  if a + b < u64Bound then some (a + b) else none

/-- Rust `u128::checked_mul`: `none` exactly when the product overflows 128 bits. -/
def checkedMulU128 (a b : Nat) : Option Nat :=
  if a * b < u128Bound then some (a * b) else none

/-- Rust `u128::checked_div`: `none` exactly when the divisor is zero;
otherwise floor division. -/
def checkedDivU128 (a b : Nat) : Option Nat :=
  if b = 0 then none else some (a / b)

/-- The `Market` account (lib.rs lines 309-323). -/
structure Market where
  authority : Nat
  market_id : Nat
  description : String
  end_time : Int
  min_bet_amount : Nat
  total_yes_bets : Nat
  total_no_bets : Nat
  is_resolved : Bool
  winning_outcome : Option Bool
  created_at : Int
deriving Repr, DecidableEq

/-- The `Bet` account (lib.rs lines 325-334). -/
structure Bet where
  bettor : Nat
  market_id : Nat
  outcome : Bool
  amount : Nat
  timestamp : Int
  is_claimed : Bool
deriving Repr, DecidableEq

/-- The program's `ErrorCode` enum (lib.rs lines 368-396). -/
inductive ErrorCode where
  | invalidEndTime
  | descriptionTooLong
  | invalidBetAmount
  | marketAlreadyResolved
  | marketExpired
  | betTooSmall
  | invalidMarketId
  | unauthorizedResolver
  | marketNotExpired
  | marketNotResolved
  | alreadyClaimed
  | unauthorizedClaimer
  | losingBet
deriving Repr, DecidableEq

/-- Result of an instruction: either a `require!` rejection carrying one of
the program's error codes, or an abort of the transaction caused by an
`unwrap()` on a failed checked-arithmetic operation (`arithAbort`). -/
inductive ProgErr where
  | code : ErrorCode → ProgErr
  | arithAbort : ProgErr
deriving Repr, DecidableEq

instance exceptDecEq {ε α : Type} [DecidableEq ε] [DecidableEq α] : DecidableEq (Except ε α) := fun x y =>
  match x, y with
  | .error a, .error b =>
    if h : a = b then isTrue (by rw [h]) else isFalse (by intro hc; cases hc; exact h rfl)
  | .ok a, .ok b =>
    if h : a = b then isTrue (by rw [h]) else isFalse (by intro hc; cases hc; exact h rfl)
  | .error _, .ok _ => isFalse (by intro hc; cases hc)
  | .ok _, .error _ => isFalse (by intro hc; cases hc)

/-- True iff the instruction result is a failure (of either kind). -/
def isFailure {α : Type} : Except ProgErr α → Bool
  | .error _ => true
  | .ok _ => false

/-- `create_market` (lib.rs lines 10-45).  Inputs: the caller (`authority`
signer), the clock's `unix_timestamp`, and the instruction arguments.
Returns the initialized `Market` account.  Rust's `description.len()` at
line 22 counts UTF-8 bytes, so it is modelled with `String.utf8ByteSize`
rather than the character count. -/
def createMarket (authority : Nat) (now : Int) (market_id : Nat)
    (description : String) (end_time : Int) (min_bet_amount : Nat) :
    Except ProgErr Market :=
  if now < end_time then
    if description.utf8ByteSize ≤ 280 then
      if 0 < min_bet_amount then
        .ok { authority := authority
              market_id := market_id
              description := description
              end_time := end_time
              min_bet_amount := min_bet_amount
              total_yes_bets := 0
              total_no_bets := 0
              is_resolved := false
              winning_outcome := none
              created_at := now }
      else .error (.code .invalidBetAmount)
    else .error (.code .descriptionTooLong)
  else .error (.code .invalidEndTime)

/-- `place_bet` (lib.rs lines 47-97).  Inputs: current `Market` state, the
clock, the caller (`bettor` signer), and the instruction arguments.
Returns the updated `Market` and the initialized `Bet`; the `amount` moved
into the vault equals the argument, so it is not repeated in the result. -/
def placeBet (market : Market) (now : Int) (bettor : Nat)
    (market_id : Nat) (bet_outcome : Bool) (amount : Nat) :
    Except ProgErr (Market × Bet) :=
  if market.is_resolved then .error (.code .marketAlreadyResolved)
  else if now < market.end_time then
    if market.min_bet_amount ≤ amount then
      if market.market_id = market_id then
        match (if bet_outcome then checkedAddU64 market.total_yes_bets amount
               else checkedAddU64 market.total_no_bets amount) with
        | none => .error .arithAbort
        | some t =>
          let market' := if bet_outcome then { market with total_yes_bets := t }
                         else { market with total_no_bets := t }
          .ok (market',
               { bettor := bettor
                 market_id := market_id
                 outcome := bet_outcome
                 amount := amount
                 timestamp := now
                 is_claimed := false })
      else .error (.code .invalidMarketId)
    else .error (.code .betTooSmall)
  else .error (.code .marketExpired)

/-- `resolve_market` (lib.rs lines 99-129). -/
def resolveMarket (market : Market) (now : Int) (caller : Nat)
    (market_id : Nat) (winning_outcome : Bool) : Except ProgErr Market :=
  if caller = market.authority then
    if market.is_resolved then .error (.code .marketAlreadyResolved)
    else if market.end_time ≤ now then
      if market.market_id = market_id then
        .ok { market with is_resolved := true
                          winning_outcome := some winning_outcome }
      else .error (.code .invalidMarketId)
    else .error (.code .marketNotExpired)
  else .error (.code .unauthorizedResolver)

/-- The payout computation of `claim_winnings` (lib.rs lines 159-161):
`(bet.amount as u128).checked_mul(total_pool).checked_div(winning_pool) as u64`.
The final `as u64` cast truncates modulo `2^64`. -/
def winningsCalc (amount total_pool winning_pool : Nat) : Option Nat :=
  match checkedMulU128 amount total_pool with
  | none => none
  | some p =>
    match checkedDivU128 p winning_pool with
    | none => none
    | some w => some (w % u64Bound)

/-- `claim_winnings` (lib.rs lines 131-193).  Returns the updated `Bet`
(with `is_claimed := true`) and the amount of winnings transferred out of
the vault.  The `u64` addition `total_yes_bets + total_no_bets` at line 152
aborts on overflow (modelled through `checkedAddU64`), and the two
`unwrap()`s on the u128 computation abort on `none`. -/
def claimWinnings (market : Market) (bet : Bet) (caller : Nat)
    (market_id : Nat) : Except ProgErr (Bet × Nat) :=
  if market.is_resolved then
    if bet.is_claimed then .error (.code .alreadyClaimed)
    else if bet.market_id = market_id then
      if bet.bettor = caller then
        match market.winning_outcome with
        | none => .error .arithAbort
        | some winning_outcome =>
          if bet.outcome = winning_outcome then
            match checkedAddU64 market.total_yes_bets market.total_no_bets with
            | none => .error .arithAbort
            | some total_pool =>
              let winning_pool := if winning_outcome then market.total_yes_bets
                                  else market.total_no_bets
              match winningsCalc bet.amount total_pool winning_pool with
              | none => .error .arithAbort
              | some winnings => .ok ({ bet with is_claimed := true }, winnings)
          else .error (.code .losingBet)
      else .error (.code .unauthorizedClaimer)
    else .error (.code .invalidMarketId)
  else .error (.code .marketNotResolved)

/-- The state invariant of a `Market` record: the winning outcome is unset
exactly while the market is unresolved. -/
def marketInv (m : Market) : Prop :=
  m.winning_outcome = none ↔ m.is_resolved = false

instance (m : Market) : Decidable (marketInv m) := by
  unfold marketInv; infer_instance

/-! Concrete states used by counterexamples, scenarios and witnesses. -/

/-- A resolved market whose two pool totals sum past `u64::MAX`: each side
holds `2^63`, individually valid `u64` values reachable through repeated
`place_bet` calls. -/
def overflowMarket : Market :=
  { authority := 0, market_id := 1, description := "q", end_time := 100,
    min_bet_amount := 10, total_yes_bets := 2 ^ 63, total_no_bets := 2 ^ 63,
    is_resolved := true, winning_outcome := some true, created_at := 0 }

/-- An unclaimed winning bet on `overflowMarket`. -/
def overflowBet : Bet :=
  { bettor := 1, market_id := 1, outcome := true, amount := 100,
    timestamp := 10, is_claimed := false }

/-- An open market used to exercise `resolve_market`. -/
def openMarket : Market :=
  { authority := 0, market_id := 1, description := "q", end_time := 100,
    min_bet_amount := 10, total_yes_bets := 0, total_no_bets := 0,
    is_resolved := false, winning_outcome := none, created_at := 0 }

/-- `openMarket` after a successful `resolve_market` with outcome `true`. -/
def resolvedMarket : Market :=
  { openMarket with is_resolved := true, winning_outcome := some true }

/-- Scenario of spec section 8: fresh market with `min_bet_amount = 10`. -/
def scnMarket0 : Market :=
  { authority := 0, market_id := 1, description := "will it rain",
    end_time := 100, min_bet_amount := 10, total_yes_bets := 0,
    total_no_bets := 0, is_resolved := false, winning_outcome := none,
    created_at := 0 }

/-- `scnMarket0` after bettor A stakes 100 on YES. -/
def scnMarket1 : Market := { scnMarket0 with total_yes_bets := 100 }

/-- `scnMarket1` after bettor B stakes 300 on NO. -/
def scnMarket2 : Market := { scnMarket1 with total_no_bets := 300 }

/-- `scnMarket2` resolved to NO. -/
def scnMarket3 : Market :=
  { scnMarket2 with is_resolved := true, winning_outcome := some false }

/-- Bettor A's bet: 100 on YES. -/
def scnBetA : Bet :=
  { bettor := 1, market_id := 1, outcome := true, amount := 100,
    timestamp := 10, is_claimed := false }

/-- Bettor B's bet: 300 on NO. -/
def scnBetB : Bet :=
  { bettor := 2, market_id := 1, outcome := false, amount := 300,
    timestamp := 20, is_claimed := false }

/-- One-sided scenario of spec section 8: fresh market, `min_bet_amount = 10`. -/
def soloMarket0 : Market :=
  { authority := 0, market_id := 2, description := "solo",
    end_time := 100, min_bet_amount := 10, total_yes_bets := 0,
    total_no_bets := 0, is_resolved := false, winning_outcome := none,
    created_at := 0 }

/-- `soloMarket0` after the single bettor stakes 50 on YES. -/
def soloMarket1 : Market := { soloMarket0 with total_yes_bets := 50 }

/-- `soloMarket1` resolved to YES. -/
def soloMarket2 : Market :=
  { soloMarket1 with is_resolved := true, winning_outcome := some true }

/-- The single bettor's bet: 50 on YES. -/
def soloBet : Bet :=
  { bettor := 3, market_id := 2, outcome := true, amount := 50,
    timestamp := 10, is_claimed := false }

/-- An open market whose YES pool sits close to `u64::MAX`, so that one more
moderate YES bet overflows the checked addition in `place_bet`. -/
def nearMaxMarket : Market :=
  { authority := 0, market_id := 1, description := "q", end_time := 100,
    min_bet_amount := 10, total_yes_bets := 2 ^ 64 - 5, total_no_bets := 0,
    is_resolved := false, winning_outcome := none, created_at := 0 }

/-- A resolved market whose winning side (YES) holds no stake, while a bet
record claims that side: no sequence of instructions produces this pair, but
`claim_winnings` must still reject it rather than divide by zero. -/
def zeroPoolMarket : Market :=
  { authority := 0, market_id := 3, description := "z", end_time := 100,
    min_bet_amount := 10, total_yes_bets := 0, total_no_bets := 7,
    is_resolved := true, winning_outcome := some true, created_at := 0 }

/-- A bet on the empty winning side of `zeroPoolMarket`. -/
def zeroPoolBet : Bet :=
  { bettor := 4, market_id := 3, outcome := true, amount := 100,
    timestamp := 1, is_claimed := false }

/-! Theorems.  First, shared lemmas about the payout arithmetic. -/

@[simp] theorem isFailure_error {α : Type} (e : ProgErr) :
    isFailure (α := α) (.error e) = true := rfl

@[simp] theorem isFailure_ok {α : Type} (a : α) :
    isFailure (α := α) (.ok a) = false := rfl

/-- The checked `u128` multiplication in the payout never overflows when its
operands are valid `u64` values, and the division is defined for a nonzero
winning pool: `winningsCalc` returns the floored quotient reduced modulo
`2^64` (the trailing `as u64` cast). -/
theorem winningsCalc_eq (a T W : Nat) (ha : a < u64Bound) (hT : T < u64Bound)
    (hW : 0 < W) : winningsCalc a T W = some (a * T / W % u64Bound) := by
  have hmul : a * T < u128Bound := by
    have h1 : a * T < u64Bound * u64Bound :=
      mul_lt_mul'' ha hT (Nat.zero_le a) (Nat.zero_le T)
    have h2 : u64Bound * u64Bound = u128Bound := by norm_num [u64Bound, u128Bound]
    omega
  have hWne : ¬ W = 0 := Nat.pos_iff_ne_zero.mp hW
  simp [winningsCalc, checkedMulU128, checkedDivU128, hmul, hWne]

/-- A winning claimant's quotient never exceeds the total pool when the
bet amount is at most the winning pool, so the `as u64` cast is lossless. -/
theorem winningsCalc_eq_of_le (a T W : Nat) (ha : a < u64Bound) (hT : T < u64Bound)
    (hW : 0 < W) (haW : a ≤ W) : winningsCalc a T W = some (a * T / W) := by
  have hle : a * T / W ≤ T := by
    calc a * T / W ≤ W * T / W := Nat.div_le_div_right (Nat.mul_le_mul_right T haW)
    _ = T := Nat.mul_div_cancel_left T hW
  rw [winningsCalc_eq a T W ha hT hW, Nat.mod_eq_of_lt (lt_of_le_of_lt hle hT)]

/-- Unfolds a `claim_winnings` call that passes every `require!` check:
winning bet, pool totals fitting in `u64`, nonzero winning pool.  The paid
amount is the floored pro-rata share, truncated by the `as u64` cast. -/
theorem claimWinnings_eq_ok (market : Market) (bet : Bet) (caller mid : Nat)
    (w : Bool)
    (hres : market.is_resolved = true) (hun : bet.is_claimed = false)
    (hmid : bet.market_id = mid) (hown : bet.bettor = caller)
    (hw : market.winning_outcome = some w) (hmatch : bet.outcome = w)
    (hfit : market.total_yes_bets + market.total_no_bets < u64Bound)
    (ha : bet.amount < u64Bound)
    (hW : 0 < (if w then market.total_yes_bets else market.total_no_bets)) :
    claimWinnings market bet caller mid =
      .ok ({ bet with is_claimed := true },
        bet.amount * (market.total_yes_bets + market.total_no_bets) /
          (if w then market.total_yes_bets else market.total_no_bets) % u64Bound) := by
  simp [claimWinnings, checkedAddU64, hres, hun, hmid, hown, hw, hmatch, hfit,
    winningsCalc_eq _ _ _ ha hfit hW]

/-- Variant of `claimWinnings_eq_ok` when the bet amount is at most the
winning pool (true of every recorded winning bet): the cast is lossless and
the paid amount is exactly `floor(amount * total_pool / winning_pool)`. -/
theorem claimWinnings_eq_ok_exact (market : Market) (bet : Bet) (caller mid : Nat)
    (w : Bool)
    (hres : market.is_resolved = true) (hun : bet.is_claimed = false)
    (hmid : bet.market_id = mid) (hown : bet.bettor = caller)
    (hw : market.winning_outcome = some w) (hmatch : bet.outcome = w)
    (hfit : market.total_yes_bets + market.total_no_bets < u64Bound)
    (ha : bet.amount < u64Bound)
    (hW : 0 < (if w then market.total_yes_bets else market.total_no_bets))
    (haW : bet.amount ≤ (if w then market.total_yes_bets else market.total_no_bets)) :
    claimWinnings market bet caller mid =
      .ok ({ bet with is_claimed := true },
        bet.amount * (market.total_yes_bets + market.total_no_bets) /
          (if w then market.total_yes_bets else market.total_no_bets)) := by
  simp [claimWinnings, checkedAddU64, hres, hun, hmid, hown, hw, hmatch, hfit,
    winningsCalc_eq_of_le _ _ _ ha hfit hW haW]

/-- Helper: the payout computation returns `none` (so `claim_winnings`
aborts) whenever the winning pool is zero: the `checked_div` guards the
division by zero. -/
theorem winningsCalc_zero_pool (a T : Nat) : winningsCalc a T 0 = none := by
  by_cases h : a * T < u128Bound <;>
    simp [winningsCalc, checkedMulU128, checkedDivU128, h]

/-- C1 counterexample: on a resolved market holding `2^63` on each side (all
field values valid `u64`s), a winning unclaimed bet owned by the caller is
NOT paid `floor(amount * total_pool / winning_pool)`: the `u64` addition
`total_yes_bets + total_no_bets` at lib.rs line 152 overflows and the call
aborts instead of transferring. -/
theorem claim_formula_overflow_cex :
    overflowMarket.is_resolved = true ∧ overflowBet.is_claimed = false ∧
    overflowBet.bettor = 1 ∧ overflowBet.market_id = 1 ∧
    overflowMarket.winning_outcome = some overflowBet.outcome ∧
    claimWinnings overflowMarket overflowBet 1 1 = .error .arithAbort ∧
    claimWinnings overflowMarket overflowBet 1 1 ≠
      .ok ({ overflowBet with is_claimed := true },
        overflowBet.amount *
          (overflowMarket.total_yes_bets + overflowMarket.total_no_bets) /
          overflowMarket.total_yes_bets) := by
  decide

/-- C1 (amended): when the preconditions hold (market resolved, bet
unclaimed, owned by the caller, on the winning outcome) and additionally
`total_yes_bets + total_no_bets` fits in `u64` and the winning pool is
nonzero and contains the bet's amount, the transferred amount equals
`floor(bet.amount * total_pool / winning_pool)`; the multiplication and
division are carried out in `u128` and cannot overflow. -/
theorem claim_winnings_formula (market : Market) (bet : Bet) (caller mid : Nat)
    (w : Bool)
    (hres : market.is_resolved = true) (hun : bet.is_claimed = false)
    (hmid : bet.market_id = mid) (hown : bet.bettor = caller)
    (hw : market.winning_outcome = some w) (hmatch : bet.outcome = w)
    (hfit : market.total_yes_bets + market.total_no_bets < u64Bound)
    (ha : bet.amount < u64Bound)
    (hW : 0 < (if w then market.total_yes_bets else market.total_no_bets))
    (haW : bet.amount ≤ (if w then market.total_yes_bets else market.total_no_bets)) :
    claimWinnings market bet caller mid =
      .ok ({ bet with is_claimed := true },
        bet.amount * (market.total_yes_bets + market.total_no_bets) /
          (if w then market.total_yes_bets else market.total_no_bets)) :=
  claimWinnings_eq_ok_exact market bet caller mid w hres hun hmid hown hw hmatch
    hfit ha hW haW

/-- Witness for C1 (amended): bettor B of the spec's concrete scenario is
paid exactly 400. -/
theorem claim_winnings_formula_witness :
    claimWinnings scnMarket3 scnBetB 2 1 =
      .ok ({ scnBetB with is_claimed := true },
        scnBetB.amount * (scnMarket3.total_yes_bets + scnMarket3.total_no_bets) /
          (if false then scnMarket3.total_yes_bets else scnMarket3.total_no_bets)) :=
  claim_winnings_formula scnMarket3 scnBetB 2 1 false (by decide) (by decide)
    (by decide) (by decide) (by decide) (by decide) (by decide) (by decide)
    (by decide) (by decide)

/-- C2: on a resolved market, a claim by the bet's owner on a losing bet
fails with `LosingBet` (so `is_claimed` stays false: an erroring instruction
persists nothing), and on a winning bet two sequential claims yield one
success (one transfer) followed by the `AlreadyClaimed` failure — a second
transfer never occurs, since an erroring call transfers nothing. -/
theorem claim_once_semantics (market : Market) (bet : Bet) (caller mid : Nat)
    (w : Bool)
    (hres : market.is_resolved = true) (hw : market.winning_outcome = some w)
    (hun : bet.is_claimed = false) (hmid : bet.market_id = mid)
    (hown : bet.bettor = caller) :
    (bet.outcome ≠ w →
      claimWinnings market bet caller mid = .error (.code .losingBet)) ∧
    (bet.outcome = w →
      market.total_yes_bets + market.total_no_bets < u64Bound →
      bet.amount < u64Bound →
      0 < (if w then market.total_yes_bets else market.total_no_bets) →
      ∃ amt, claimWinnings market bet caller mid =
          .ok ({ bet with is_claimed := true }, amt) ∧
        claimWinnings market { bet with is_claimed := true } caller mid =
          .error (.code .alreadyClaimed)) := by
  constructor
  · intro hne
    simp [claimWinnings, hres, hun, hmid, hown, hw, hne]
  · intro hmatch hfit ha hW
    exact ⟨_, claimWinnings_eq_ok market bet caller mid w hres hun hmid hown hw
      hmatch hfit ha hW, by simp [claimWinnings, hres]⟩

/-- Witness for C2: in the spec's concrete scenario, bettor B's first claim
succeeds and the repeated claim fails with `AlreadyClaimed`. -/
theorem claim_once_semantics_witness :
    ∃ amt, claimWinnings scnMarket3 scnBetB 2 1 =
        .ok ({ scnBetB with is_claimed := true }, amt) ∧
      claimWinnings scnMarket3 { scnBetB with is_claimed := true } 2 1 =
        .error (.code .alreadyClaimed) :=
  (claim_once_semantics scnMarket3 scnBetB 2 1 false (by decide) (by decide)
    (by decide) (by decide) (by decide)).2 (by decide) (by decide) (by decide)
    (by decide)

/-- C6: when a claim reaches the payout computation (all earlier checks pass
and the bet matches the winning outcome) with a zero winning pool, the call
is rejected with a defined abort — the `checked_div` returns `None` and the
`unwrap` aborts the instruction, never undefined behaviour; and under the
claim's preconditions (the bet's amount is counted into the winning side's
total and `amount ≥ min_bet_amount > 0`) a zero winning pool is impossible. -/
theorem claim_zero_pool_guard (market : Market) (bet : Bet) (caller mid : Nat)
    (w : Bool)
    (hres : market.is_resolved = true) (hun : bet.is_claimed = false)
    (hmid : bet.market_id = mid) (hown : bet.bettor = caller)
    (hw : market.winning_outcome = some w) (hmatch : bet.outcome = w) :
    ((if w then market.total_yes_bets else market.total_no_bets) = 0 →
      claimWinnings market bet caller mid = .error .arithAbort) ∧
    (bet.amount ≤ (if w then market.total_yes_bets else market.total_no_bets) →
      market.min_bet_amount ≤ bet.amount → 0 < market.min_bet_amount →
      0 < (if w then market.total_yes_bets else market.total_no_bets)) := by
  constructor
  · intro hz
    cases hadd : checkedAddU64 market.total_yes_bets market.total_no_bets with
    | none => simp [claimWinnings, hres, hun, hmid, hown, hw, hmatch, hadd]
    | some t =>
      simp [claimWinnings, hres, hun, hmid, hown, hw, hmatch, hadd, hz,
        winningsCalc_zero_pool]
  · intro h1 h2 h3
    omega

/-- Witness for C6: on the (unreachable) zero-winning-pool state the claim
aborts with the arithmetic error. -/
theorem claim_zero_pool_guard_witness :
    claimWinnings zeroPoolMarket zeroPoolBet 4 3 = .error .arithAbort :=
  (claim_zero_pool_guard zeroPoolMarket zeroPoolBet 4 3 true (by decide)
    (by decide) (by decide) (by decide) (by decide) (by decide)).1 (by decide)

/-- C9: the two concrete scenarios of spec section 8.  With
`min_bet_amount = 10`, A stakes 100 on YES and B stakes 300 on NO; after
resolution to NO, B's claim transfers exactly 400 and A's claim fails as a
losing bet.  In the one-sided scenario a single 50 YES stake resolved to YES
claims exactly 50. -/
theorem concrete_scenarios :
    (createMarket 0 0 1 "will it rain" 100 10 = .ok scnMarket0 ∧
     placeBet scnMarket0 10 1 1 true 100 = .ok (scnMarket1, scnBetA) ∧
     placeBet scnMarket1 20 2 1 false 300 = .ok (scnMarket2, scnBetB) ∧
     resolveMarket scnMarket2 100 0 1 false = .ok scnMarket3 ∧
     claimWinnings scnMarket3 scnBetB 2 1 =
       .ok ({ scnBetB with is_claimed := true }, 400) ∧
     claimWinnings scnMarket3 scnBetA 1 1 = .error (.code .losingBet)) ∧
    (createMarket 0 0 2 "solo" 100 10 = .ok soloMarket0 ∧
     placeBet soloMarket0 10 3 2 true 50 = .ok (soloMarket1, soloBet) ∧
     resolveMarket soloMarket1 100 0 2 true = .ok soloMarket2 ∧
     claimWinnings soloMarket2 soloBet 3 2 =
       .ok ({ soloBet with is_claimed := true }, 50)) := by
  decide

/-- C10: a successful claim on a market whose true pool sum fits in `u64`,
with the winning bet's amount counted into the (nonzero) winning side's
total, pays out at least the original stake. -/
theorem claim_at_least_stake (market : Market) (bet : Bet) (caller mid : Nat)
    (w : Bool)
    (hres : market.is_resolved = true) (hun : bet.is_claimed = false)
    (hmid : bet.market_id = mid) (hown : bet.bettor = caller)
    (hw : market.winning_outcome = some w) (hmatch : bet.outcome = w)
    (hfit : market.total_yes_bets + market.total_no_bets < u64Bound)
    (ha : bet.amount < u64Bound)
    (hW : 0 < (if w then market.total_yes_bets else market.total_no_bets))
    (haW : bet.amount ≤ (if w then market.total_yes_bets else market.total_no_bets)) :
    claimWinnings market bet caller mid =
      .ok ({ bet with is_claimed := true },
        bet.amount * (market.total_yes_bets + market.total_no_bets) /
          (if w then market.total_yes_bets else market.total_no_bets)) ∧
    bet.amount ≤
      bet.amount * (market.total_yes_bets + market.total_no_bets) /
        (if w then market.total_yes_bets else market.total_no_bets) := by
  refine ⟨claimWinnings_eq_ok_exact market bet caller mid w hres hun hmid hown
    hw hmatch hfit ha hW haW, ?_⟩
  have hWT : (if w then market.total_yes_bets else market.total_no_bets) ≤
      market.total_yes_bets + market.total_no_bets := by
    cases w <;> simp
  have h0 : bet.amount * (if w then market.total_yes_bets else market.total_no_bets) /
      (if w then market.total_yes_bets else market.total_no_bets) = bet.amount := by
    rw [mul_comm]
    exact Nat.mul_div_cancel_left _ hW
  calc bet.amount
      = bet.amount * (if w then market.total_yes_bets else market.total_no_bets) /
          (if w then market.total_yes_bets else market.total_no_bets) := h0.symm
    _ ≤ bet.amount * (market.total_yes_bets + market.total_no_bets) /
          (if w then market.total_yes_bets else market.total_no_bets) :=
        Nat.div_le_div_right (Nat.mul_le_mul (le_refl _) hWT)

/-- Witness for C10: the solo bettor's claim returns the full 50 stake,
which is at least the 50 staked. -/
theorem claim_at_least_stake_witness :
    claimWinnings soloMarket2 soloBet 3 2 =
      .ok ({ soloBet with is_claimed := true },
        soloBet.amount * (soloMarket2.total_yes_bets + soloMarket2.total_no_bets) /
          (if true then soloMarket2.total_yes_bets else soloMarket2.total_no_bets)) ∧
    soloBet.amount ≤
      soloBet.amount * (soloMarket2.total_yes_bets + soloMarket2.total_no_bets) /
        (if true then soloMarket2.total_yes_bets else soloMarket2.total_no_bets) :=
  claim_at_least_stake soloMarket2 soloBet 3 2 true (by decide) (by decide)
    (by decide) (by decide) (by decide) (by decide) (by decide) (by decide)
    (by decide) (by decide)

/-- C3 counterexample: after a successful resolution, an attempt by a
non-authority caller does NOT fail with the "already resolved" error — the
authority check at lib.rs line 108 runs first, so it fails with
`UnauthorizedResolver` instead. -/
theorem resolve_already_resolved_cex :
    resolveMarket openMarket 100 0 1 true = .ok resolvedMarket ∧
    resolvedMarket.is_resolved = true ∧
    resolveMarket resolvedMarket 200 5 1 true =
      .error (.code .unauthorizedResolver) ∧
    resolveMarket resolvedMarket 200 5 1 true ≠
      .error (.code .marketAlreadyResolved) := by
  decide

/-- C3 (amended): `resolve_market` fails whenever the current time is before
`end_time`; a non-authority caller always fails (with the authorization
error, regardless of time or resolution state); a successful resolution
leaves `is_resolved = true`, after which every further attempt fails — with
the "already resolved" error when the caller is the authority — so at most
one resolution per market can succeed, and an erroring call leaves the
market unchanged. -/
theorem resolve_single_success (market : Market) (now : Int) (caller : Nat)
    (mid : Nat) (w : Bool) :
    (now < market.end_time →
      isFailure (resolveMarket market now caller mid w) = true) ∧
    (caller ≠ market.authority →
      resolveMarket market now caller mid w =
        .error (.code .unauthorizedResolver)) ∧
    (market.is_resolved = true →
      isFailure (resolveMarket market now caller mid w) = true ∧
      (caller = market.authority →
        resolveMarket market now caller mid w =
          .error (.code .marketAlreadyResolved))) ∧
    (∀ m', resolveMarket market now caller mid w = .ok m' →
      m'.is_resolved = true) := by
  refine ⟨?_, ?_, ?_, ?_⟩
  · intro h
    simp only [resolveMarket]
    repeat' split
    all_goals first | rfl | omega
  · intro hne
    simp [resolveMarket, hne]
  · intro hr
    constructor
    · simp only [resolveMarket]
      repeat' split
      all_goals rfl
    · intro hc
      simp [resolveMarket, hc, hr]
  · intro m' hok
    simp only [resolveMarket] at hok
    repeat' split at hok
    all_goals first
      | (injection hok with h2; rw [← h2])
      | injection hok

/-- Witness for C3 (amended): a pre-deadline attempt on `openMarket` fails. -/
theorem resolve_single_success_witness :
    isFailure (resolveMarket openMarket 50 0 1 true) = true :=
  (resolve_single_success openMarket 50 0 1 true).1 (by decide)

/-- C4: a `place_bet` whose chosen side's running total would exceed
`u64::MAX` aborts with an error — the `checked_add` returns `None` and the
`unwrap` aborts the instruction — so no market total, bet record, or balance
change persists (an erroring instruction commits nothing). -/
theorem place_bet_overflow_aborts (market : Market) (now : Int)
    (bettor mid : Nat) (o : Bool) (amount : Nat)
    (hover : u64Bound ≤
      (if o then market.total_yes_bets else market.total_no_bets) + amount) :
    isFailure (placeBet market now bettor mid o amount) = true := by
  have hnone : (if o then checkedAddU64 market.total_yes_bets amount
      else checkedAddU64 market.total_no_bets amount) = none := by
    cases o <;> simp_all [checkedAddU64]
  simp only [placeBet, hnone]
  repeat' split
  all_goals rfl

/-- Witness for C4: one more 10-unit YES bet on a market whose YES pool
already holds `2^64 - 5` aborts. -/
theorem place_bet_overflow_aborts_witness :
    isFailure (placeBet nearMaxMarket 10 1 1 true 10) = true :=
  place_bet_overflow_aborts nearMaxMarket 10 1 1 true 10 (by decide)

/-- C7: with `end_time` strictly after the current time, description length
at most 280 UTF-8 bytes (the unit `description.len()` measures), and
positive `min_bet_amount`, `create_market` succeeds and returns a market
with zero totals, `is_resolved = false` and `winning_outcome = none`; each
violated precondition fails with its validation error (checked in source
order), and a failing call creates nothing. -/
theorem create_market_spec (authority : Nat) (now : Int) (mid : Nat)
    (d : String) (et : Int) (mb : Nat) :
    (now < et → d.utf8ByteSize ≤ 280 → 0 < mb →
      createMarket authority now mid d et mb =
        .ok { authority := authority, market_id := mid, description := d,
              end_time := et, min_bet_amount := mb, total_yes_bets := 0,
              total_no_bets := 0, is_resolved := false,
              winning_outcome := none, created_at := now }) ∧
    (¬ now < et →
      createMarket authority now mid d et mb = .error (.code .invalidEndTime)) ∧
    (now < et → ¬ d.utf8ByteSize ≤ 280 →
      createMarket authority now mid d et mb =
        .error (.code .descriptionTooLong)) ∧
    (now < et → d.utf8ByteSize ≤ 280 → ¬ 0 < mb →
      createMarket authority now mid d et mb =
        .error (.code .invalidBetAmount)) := by
  refine ⟨?_, ?_, ?_, ?_⟩ <;> intros <;> simp [createMarket, *]

/-- Witness for C7: a valid creation at time 0 with deadline 100. -/
theorem create_market_spec_witness :
    createMarket 7 0 1 "q" 100 10 =
      .ok { authority := 7, market_id := 1, description := "q", end_time := 100,
            min_bet_amount := 10, total_yes_bets := 0, total_no_bets := 0,
            is_resolved := false, winning_outcome := none, created_at := 0 } :=
  (create_market_spec 7 0 1 "q" 100 10).1 (by decide) (by decide) (by decide)

/-- C8: `create_market` establishes the invariant `winning_outcome = none ↔
is_resolved = false` with `is_resolved = false`; `place_bet` changes neither
resolution field (so it preserves the invariant and never reverts
`is_resolved`); `resolve_market` re-establishes the invariant with
`is_resolved = true` and never sets `is_resolved` to false.
(`claim_winnings` does not write the market account at all, per its
`Account` usage at lib.rs line 135, so it preserves both trivially.) -/
theorem market_state_invariant (a : Nat) (now : Int) (mid : Nat) (d : String)
    (et : Int) (mb : Nat) (m m' : Market) (bt : Bet) (b c : Nat) (o w : Bool)
    (amt : Nat) :
    (createMarket a now mid d et mb = .ok m' →
      marketInv m' ∧ m'.is_resolved = false) ∧
    (placeBet m now b mid o amt = .ok (m', bt) →
      m'.is_resolved = m.is_resolved ∧
      m'.winning_outcome = m.winning_outcome ∧
      (marketInv m → marketInv m')) ∧
    (resolveMarket m now c mid w = .ok m' →
      marketInv m' ∧ m'.is_resolved = true) := by
  refine ⟨?_, ?_, ?_⟩
  · intro h
    simp only [createMarket] at h
    repeat' split at h
    all_goals first
      | (injection h with h2; rw [← h2]; exact ⟨by simp [marketInv], rfl⟩)
      | injection h
  · intro h
    simp only [placeBet] at h
    repeat' split at h
    all_goals simp_all [marketInv]
    all_goals obtain ⟨h1, h2⟩ := h
    all_goals rw [← h1]
    all_goals simp_all
  · intro h
    simp only [resolveMarket] at h
    repeat' split at h
    all_goals first
      | (injection h with h2; rw [← h2]; exact ⟨by simp [marketInv], rfl⟩)
      | injection h

/-- Witness for C8: the invariant holds for a freshly created market. -/
theorem market_state_invariant_witness :
    marketInv { authority := 7, market_id := 1, description := "q",
                end_time := 100, min_bet_amount := 10, total_yes_bets := 0,
                total_no_bets := 0, is_resolved := false,
                winning_outcome := none, created_at := 0 } ∧
    ({ authority := 7, market_id := 1, description := "q", end_time := 100,
       min_bet_amount := 10, total_yes_bets := 0, total_no_bets := 0,
       is_resolved := false, winning_outcome := none,
       created_at := 0 } : Market).is_resolved = false :=
  (market_state_invariant 7 0 1 "q" 100 10 openMarket _ scnBetA 0 0 true true
    0).1 (by decide)

/-- Helper: floor division is sub-additive over a sum of numerators. -/
theorem payout_add_div_le (a b W : Nat) : a / W + b / W ≤ (a + b) / W := by
  rcases Nat.eq_zero_or_pos W with h | h
  · simp [h]
  · rw [Nat.le_div_iff_mul_le h, add_mul]
    exact add_le_add (Nat.div_mul_le_self a W) (Nat.div_mul_le_self b W)

/-- Helper: the sum of floored quotients is at most the quotient of the sum. -/
theorem payout_sum_div_le (W : Nat) (l : List Nat) :
    (l.map (fun a => a / W)).sum ≤ l.sum / W := by
  induction l with
  | nil => simp
  | cons x xs ih =>
    simp only [List.map_cons, List.sum_cons]
    calc x / W + (xs.map (fun a => a / W)).sum
        ≤ x / W + xs.sum / W := Nat.add_le_add_left ih _
      _ ≤ (x + xs.sum) / W := payout_add_div_le x xs.sum W

/-- Helper: multiplying each list element by a constant multiplies the sum. -/
theorem payout_sum_map_mul (T : Nat) (l : List Nat) :
    (l.map (fun a => a * T)).sum = l.sum * T := by
  induction l with
  | nil => simp
  | cons x xs ih => simp [ih, add_mul]

/-- Helper: a per-element affine bound summed over a list. -/
theorem payout_sum_bound (f g : Nat → Nat) (W V : Nat)
    (hfg : ∀ a, f a + 1 ≤ W * g a + V) (l : List Nat) :
    (l.map f).sum + l.length ≤ W * (l.map g).sum + l.length * V := by
  induction l with
  | nil => simp
  | cons x xs ih =>
    simp only [List.map_cons, List.sum_cons, List.length_cons]
    calc f x + (xs.map f).sum + (xs.length + 1)
        = (f x + 1) + ((xs.map f).sum + xs.length) := by ring
      _ ≤ (W * g x + V) + (W * (xs.map g).sum + xs.length * V) :=
          add_le_add (hfg x) ih
      _ = W * (g x + (xs.map g).sum) + (xs.length + 1) * V := by ring

/-- C5: for a resolved market with total pool `T` (a valid `u64`) and winning
pool `W` with `0 < W ≤ T`, the winnings the program computes for any set of
winning bets whose amounts sum to `W` total at most `T`, and the rounding
remainder is strictly less than the number of winning bets. -/
theorem payout_conservation (T W : Nat) (amounts : List Nat)
    (hT : T < u64Bound) (hWT : W ≤ T) (hW : 0 < W)
    (hsum : amounts.sum = W) :
    (∀ a ∈ amounts, winningsCalc a T W = some (a * T / W)) ∧
    (amounts.map (fun a => a * T / W)).sum ≤ T ∧
    T < (amounts.map (fun a => a * T / W)).sum + amounts.length := by
  have hmem : ∀ a ∈ amounts, a ≤ W := by
    intro a hma
    rw [← hsum]
    exact List.single_le_sum (fun x _ => Nat.zero_le x) a hma
  refine ⟨?_, ?_, ?_⟩
  · intro a hma
    exact winningsCalc_eq_of_le a T W
      (lt_of_le_of_lt (le_trans (hmem a hma) hWT) hT) hT hW (hmem a hma)
  · have h2 := payout_sum_div_le W (amounts.map (fun a => a * T))
    rw [List.map_map] at h2
    have h3 : (amounts.map (fun a => a * T)).sum = W * T := by
      rw [payout_sum_map_mul, hsum, mul_comm]
    rw [h3, Nat.mul_div_cancel_left T hW] at h2
    simpa [Function.comp] using h2
  · have hx : ∀ a, a * T + 1 ≤ W * (a * T / W) + W := by
      intro a
      have hdm := Nat.div_add_mod (a * T) W
      have hmod : a * T % W < W := Nat.mod_lt _ hW
      omega
    have haux := payout_sum_bound (fun a => a * T) (fun a => a * T / W) W W
      hx amounts
    rw [payout_sum_map_mul, hsum, mul_comm amounts.length W] at haux
    have hlen : 1 ≤ amounts.length := by
      rcases amounts with _ | ⟨x, xs⟩
      · simp at hsum
        omega
      · simp
    by_contra hcon
    push_neg at hcon
    have h5 : W * ((amounts.map (fun a => a * T / W)).sum + amounts.length) ≤
        W * T := Nat.mul_le_mul_left W hcon
    rw [mul_add] at h5
    omega

/-- Witness for C5: the single winning bet of 300 in a 400-total market is
paid 400 ≤ 400, with remainder 0 < 1. -/
theorem payout_conservation_witness :
    (∀ a ∈ ([300] : List Nat), winningsCalc a 400 300 = some (a * 400 / 300)) ∧
    (([300] : List Nat).map (fun a => a * 400 / 300)).sum ≤ 400 ∧
    400 < (([300] : List Nat).map (fun a => a * 400 / 300)).sum +
      ([300] : List Nat).length :=
  payout_conservation 400 300 [300] (by decide) (by decide) (by decide) rfl
